import Mathlib

/-!
Verification development for a pixel-based DQN racing agent. The repository
consists of a training script (`src/main.py`) and a small dataset helper
(`src/util/memory.py`). The pure functions `preprocess` and
`make_action_space` and the `Memory` class are translated directly from the
source. The inner training loop of `main` is embedded as a step function on
an explicit loop state, with the environment, the ε-greedy random draw and
the tensor backend supplied as oracles. The `DQN` class itself is imported by
the script from a module `dqn` that is not part of the repository snapshot;
its methods are modelled from the design specification and each such
definition is marked `Modelled from the spec:` in its doc comment.
-/

namespace DeepRacing

/-- An H×W RGB image in numpy layout (height, width, channel), with rational
pixel values standing for the float32 values of the source. -/
def ImageHWC (H W : Nat) : Type := Fin H → Fin W → Fin 3 → ℚ

/-- A single-channel C×H×W tensor (C = 1), the output layout of `preprocess`. -/
def Image1HW (H W : Nat) : Type := Fin 1 → Fin H → Fin W → ℚ

/-- The RGB-to-luma weights used by `torchvision.transforms.Grayscale`
(0.2989 R + 0.587 G + 0.114 B). -/
def grayscaleWeight : Fin 3 → ℚ
  | 0 => 2989 / 10000
  | 1 => 587 / 1000
  | 2 => 114 / 1000

/-- Translation of `preprocess` in `src/main.py`: the H×W×C image is turned
into a float tensor, permuted to C×H×W, converted to grayscale, divided by
255, and the on-screen score region (rows from 84 on, columns below 18) is
set to 0. -/
def preprocess {H W : Nat} (img : ImageHWC H W) : Image1HW H W :=
  let permuted : Fin 3 → Fin H → Fin W → ℚ := fun c h w => img h w c
  let gray : Image1HW H W := fun _ h w =>
    grayscaleWeight 0 * permuted 0 h w + grayscaleWeight 1 * permuted 1 h w +
      grayscaleWeight 2 * permuted 2 h w
  let scaled : Image1HW H W := fun c h w => gray c h w / 255
  fun c h w => if 84 ≤ (h : Nat) ∧ (w : Nat) < 18 then 0 else scaled c h w

/-- The per-axis quantization levels for the discrete action table, the
`action_levels` dict of `src/main.py` with keys "turn", "gas", "brake". -/
structure ActionLevels where
  turn : List ℚ
  gas : List ℚ
  brake : List ℚ

/-- Translation of `make_action_space` in `src/main.py`: three nested loops
over the turn, gas and brake levels, appending one `[turn, gas, brake]`
triple per index combination. -/
def make_action_space (action_levels : ActionLevels) : List (List ℚ) :=
  action_levels.turn.flatMap fun t =>
    action_levels.gas.flatMap fun g =>
      action_levels.brake.map fun b => [t, g, b]

/-- Translation of the `Memory` dataset class in `src/util/memory.py`: a
states sequence plus any number of further sequences (`*args`). -/
structure Memory (σ β : Type) where
  states : List σ
  data : List (List β)

/-- Translation of `Memory.__len__`: the length of the states sequence. -/
def Memory.size (m : Memory σ β) : Nat := m.states.length

/-- Translation of `Memory.__getitem__`: the state at `idx` together with the
entry of each additional sequence at the same index; `none` models Python's
`IndexError` when any sequence is too short. -/
def Memory.getItem (m : Memory σ β) (idx : Nat) : Option (σ × List β) :=
  match m.states[idx]? with
  | none => none
  | some s => (m.data.mapM fun d => d[idx]?).map fun vs => (s, vs)

/-- Translation of `np.clip(reward, -1, 1)` at `src/main.py` line 132. -/
def np_clip (r : ℚ) : ℚ := min (max r (-1)) 1

/-- One replay transition as described by the spec's data model: state,
action index, reward, optional next state (`none` signals terminal) and a
sampling priority. A state is the list of stacked frames (the
`torch.cat` of the frame buffer along the channel dimension). -/
structure Transition (Φ : Type) where
  state : List Φ
  action : Nat
  reward : ℚ
  next_state : Option (List Φ)
  priority : ℚ
  deriving DecidableEq, Repr

/-- The mutable state of the `DQN` agent object: live and target parameters,
the prioritized replay memory, the ε-greedy schedule and the
hyperparameters passed to the constructor in `src/main.py`. -/
structure DQNState (Θ Φ : Type) where
  qnet : Θ
  target : Θ
  memory : List (Transition Φ)
  nActions : Nat
  gamma : ℚ
  epsilon : ℚ
  epsilon_min : ℚ
  epsilon_decay : ℚ
  memory_alpha : ℚ
  memory_beta : ℚ
  memory_size : Nat
  deriving DecidableEq, Repr

/-- Modelled from the spec: the greedy bootstrap value
`max_a Q_target(next_state, a)` over the `nActions` entries of the discrete
action table (§4.3, step 3). -/
def maxQ (Q : Θ → List Φ → Nat → ℚ) (θ : Θ) (s : List Φ) (n : Nat) : ℚ :=
  match (List.range n).map (Q θ s) with
  | [] => 0
  | q :: qs => qs.foldl max q

/-- Append to a bounded buffer, dropping the oldest entries once the
capacity is exceeded (`collections.deque` with `maxlen`, and the spec's
oldest-first eviction for the replay memory). -/
def pushEvict (cap : Nat) (mem : List α) (x : α) : List α :=
  let m := mem ++ [x]
  if cap < m.length then m.drop (m.length - cap) else m

/-- Modelled from the spec: `DQN.remember` — the `DQN` class is imported from
a module `dqn` that is not in the repository snapshot. Per §4.2 the priority
of a fresh transition is seeded from the TD-error magnitude passed by the
caller at insertion time, never a default constant; eviction on overflow
drops the oldest entry (§4.2 leaves oldest-first vs lowest-priority open;
no claim proved here depends on the choice). -/
def DQNState.remember (d : DQNState Θ Φ) (s : List Φ) (a : Nat) (r : ℚ)
    (ns : Option (List Φ)) (err : ℚ) : DQNState Θ Φ :=
  { d with memory := pushEvict d.memory_size d.memory ⟨s, a, r, ns, |err|⟩ }

/-- Modelled from the spec: §4.3 step 3 — the training target of a
transition is `reward` when terminal (`next_state = none`), else
`reward + γ · max_a Q_target(next_state, a)`. -/
def targetValue (Q : Θ → List Φ → Nat → ℚ) (d : DQNState Θ Φ) (r : ℚ)
    (ns : Option (List Φ)) : ℚ :=
  match ns with
  | none => r
  | some s => r + d.gamma * maxQ Q d.target s d.nActions

/-- Modelled from the spec: `DQN.td_error` — the TD error is the difference
between the current estimate `Q(s,a)` and the bootstrapped target
`reward + γ · max_a Q_target(next_state, a)` (§4.3 and glossary). -/
def DQNState.td_error (Q : Θ → List Φ → Nat → ℚ) (d : DQNState Θ Φ)
    (q r : ℚ) (ns : List Φ) : ℚ :=
  q - (r + d.gamma * maxQ Q d.target ns d.nActions)

/-- Modelled from the spec: `DQN.train` — §4.3 step 1: if the replay memory
holds fewer than `batch_size` transitions the call is a no-op returning no
loss; otherwise one gradient step is applied to the live parameters only and
the scalar loss is returned. The prioritized batch sampling, the loss and
the optimizer live in the external estimator collaborator and are abstracted
as the oracles `grad` and `lossOf`. -/
def DQNState.train (grad : Θ → List (Transition Φ) → Θ)
    (lossOf : Θ → List (Transition Φ) → ℚ)
    (d : DQNState Θ Φ) (batch_size : Nat) : DQNState Θ Φ × Option ℚ :=
  if d.memory.length < batch_size then (d, none)
  else ({ d with qnet := grad d.qnet d.memory }, some (lossOf d.qnet d.memory))

/-- Modelled from the spec: `DQN.step_epsilon` — §4.5: ε decays by a fixed
per-step decrement from its initial value toward the floor `epsilon_min`,
never passing below it, independent of episode boundaries. -/
def DQNState.step_epsilon (d : DQNState Θ Φ) : DQNState Θ Φ :=
  { d with epsilon := max (d.epsilon - d.epsilon_decay) d.epsilon_min }

/-- Modelled from the spec: `DQN.update_target` — §4.4 hard update: the
target parameters are fully overwritten with a copy of the live estimator's
current parameters. -/
def DQNState.update_target (d : DQNState Θ Φ) : DQNState Θ Φ :=
  { d with target := d.qnet }

/-- The configuration entries of `config.yml` that the embedded part of the
training loop reads. -/
structure Config where
  frame_buffer_size : Nat
  batch_size : Nat
  target_update_interval : Nat
  no_reward_incr : Nat
  no_reward_max : Nat
  deriving DecidableEq, Repr

/-- The local state of `main`'s training loop: the frame deque, the `state`
local (`none` while still unassigned), the reward bookkeeping, the per-episode
and global step counters, the current no-reward timeout and the `dqn`
object. -/
structure LoopState (Θ Φ : Type) where
  frame_buffer : List Φ
  state : Option (List Φ)
  last_reward : Nat
  total_reward : ℚ
  t : Nat
  global_t : Nat
  no_reward_timeout : Nat
  dqn : DQNState Θ Φ
  deriving DecidableEq, Repr

/-- The oracle responses one loop iteration may consume: the observation of
the `env.step(env.action_space.sample())` call in the frame-buffer fill
branch, the observation/reward/done of the `env.step` on the chosen action,
and the action index produced by `dqn.get_action` (the ε-greedy draw of the
agent, whose Q-row comes from the live network). -/
structure StepInput (Ω : Type) where
  fill_screen : Ω
  screen : Ω
  reward : ℚ
  done : Bool
  action : Nat
  deriving DecidableEq, Repr

/-- The observable outcome of one loop iteration: the successor loop state,
whether the episode ended (`break`), and the TD error recorded for the
stored transition (`none` on fill-only iterations that store nothing). -/
structure StepOut (Θ Φ : Type) where
  st : LoopState Θ Φ
  ended : Bool
  error : Option ℚ
  deriving DecidableEq, Repr

/-- The episode-ending test at `src/main.py` line 144: the environment
reported `done`, or more than `no_reward_timeout` steps have passed since the
last positive (clipped) reward — where `last_reward` has just been refreshed
to the current step when this step's clipped reward is positive. -/
def terminalCond (inp : StepInput Ω) (st : LoopState Θ Φ) : Bool :=
  inp.done ||
    ((st.t : Int) - ((if 0 < np_clip inp.reward then st.t else st.last_reward : Nat) : Int)
      > (st.no_reward_timeout : Int))

/-- The action-and-learning part of one loop iteration (`src/main.py` lines
125–169), entered with the current frame buffer `fb` and the `state` local
`s`: query the live network, step the environment, accumulate the raw reward
into the episode total, clip the reward, refresh the no-reward tracker,
append the preprocessed next frame; then either store a terminal transition
and break, or store a regular transition, train, advance ε and hard-update
the target network when the global step counter hits the configured
interval. -/
def actPhase (prep : Ω → Φ) (Q : Θ → List Φ → Nat → ℚ)
    (grad : Θ → List (Transition Φ) → Θ) (lossOf : Θ → List (Transition Φ) → ℚ)
    (cfg : Config) (inp : StepInput Ω) (st : LoopState Θ Φ)
    (fb s : List Φ) : StepOut Θ Φ :=
  let qv := Q st.dqn.qnet s
  let total_reward := st.total_reward + inp.reward
  let reward := np_clip inp.reward
  let last_reward := if 0 < reward then st.t else st.last_reward
  let fb2 := pushEvict cfg.frame_buffer_size fb (prep inp.screen)
  if terminalCond inp st then
    let error := qv inp.action - reward
    ⟨{ st with
        frame_buffer := fb2
        total_reward := total_reward
        last_reward := last_reward
        dqn := st.dqn.remember s inp.action reward none error
        t := st.t + 1
        global_t := st.global_t + 1 }, true, some error⟩
  else
    let error := st.dqn.td_error Q (qv inp.action) reward fb2
    let dqn1 := st.dqn.remember s inp.action reward (some fb2) error
    let dqn2 := (dqn1.train grad lossOf cfg.batch_size).1
    let dqn3 := dqn2.step_epsilon
    let dqn4 := if st.global_t % cfg.target_update_interval == 0
      then dqn3.update_target else dqn3
    ⟨{ st with
        frame_buffer := fb2
        state := some fb2
        total_reward := total_reward
        last_reward := last_reward
        dqn := dqn4
        t := st.t + 1
        global_t := st.global_t + 1 }, false, some error⟩

/-- Translation of one iteration of the inner loop of `main` (`src/main.py`
lines 113–169). While the frame buffer is short, a random-action environment
step fills it; if it is still short the iteration only advances the
counters (`continue`), and the iteration that fills it falls through to the
action phase with `state` freshly set to the stacked buffer. `none` models
the `NameError` Python raises when the `state` local is read before its
first assignment (reachable only when `frame_buffer_size ≤ 1`). -/
def loopStep (prep : Ω → Φ) (Q : Θ → List Φ → Nat → ℚ)
    (grad : Θ → List (Transition Φ) → Θ) (lossOf : Θ → List (Transition Φ) → ℚ)
    (cfg : Config) (inp : StepInput Ω) (st : LoopState Θ Φ) :
    Option (StepOut Θ Φ) :=
  if st.frame_buffer.length < cfg.frame_buffer_size then
    let fb := pushEvict cfg.frame_buffer_size st.frame_buffer (prep inp.fill_screen)
    if fb.length < cfg.frame_buffer_size then
      some ⟨{ st with
               frame_buffer := fb
               t := st.t + 1
               global_t := st.global_t + 1 }, false, none⟩
    else some (actPhase prep Q grad lossOf cfg inp { st with state := some fb } fb fb)
  else
    match st.state with
    | none => none
    | some s => some (actPhase prep Q grad lossOf cfg inp st st.frame_buffer s)

/-- Translation of the per-episode setup (`src/main.py` lines 100–111): a
fresh frame deque holding the first preprocessed frame, reset reward
bookkeeping and a per-episode step counter restarting at 0. The `dqn`
object, the global step counter, the no-reward timeout and the (stale)
`state` local persist across episodes. -/
def episodeReset (prep : Ω → Φ) (first : Ω) (st : LoopState Θ Φ) : LoopState Θ Φ :=
  { st with frame_buffer := [prep first], last_reward := 0, total_reward := 0, t := 0 }

/-- Translation of the per-episode teardown (`src/main.py` lines 180–182):
the no-reward timeout grows by `no_reward_incr`, capped at `no_reward_max`. -/
def episodeEnd (cfg : Config) (st : LoopState Θ Φ) : LoopState Θ Φ :=
  let timeout := min (st.no_reward_timeout + cfg.no_reward_incr) cfg.no_reward_max
  { st with no_reward_timeout := timeout }

/-! Concrete instantiations used to exercise the loop theorems: frames and
observations are trivial, the parameter space is ℚ, the network returns its
parameter as every Q-value, and the gradient oracle is the identity. -/

/-- Trivial preprocessing oracle for concrete runs. -/
def prepW : Unit → Unit := fun _ => ()

/-- Concrete Q oracle: the network's single parameter is every Q-value. -/
def QW : ℚ → List Unit → Nat → ℚ := fun θ _ _ => θ

/-- Concrete gradient oracle: the identity update. -/
def gradW : ℚ → List (Transition Unit) → ℚ := fun θ _ => θ

/-- Concrete loss oracle. -/
def lossW : ℚ → List (Transition Unit) → ℚ := fun _ _ => 0

/-- A concrete agent state: live parameter 2, target 0, empty memory, one
action, γ = 1/2, ε schedule 1 → 0 by 1/10. -/
def dqnW : DQNState ℚ Unit := ⟨2, 0, [], 1, 1/2, 1, 0, 1/10, 1, 1, 10⟩

/-- A concrete configuration with a one-frame buffer and batch size 1. -/
def cfgW : Config := ⟨1, 1, 2, 0, 0⟩

/-- A concrete loop state ready for the action phase at global step 1. -/
def stW : LoopState ℚ Unit := ⟨[()], some [()], 0, 0, 0, 1, 5, dqnW⟩

/-- A concrete non-terminal step input with raw reward 1/2. -/
def inpW : StepInput Unit := ⟨(), (), 1/2, false, 0⟩

/-- The outcome of one loop iteration on the concrete data above. -/
def outW : StepOut ℚ Unit :=
  ⟨⟨[()], some [()], 0, 1/2, 1, 2, 5,
    ⟨2, 0, [⟨[()], 0, 1/2, some [()], 3/2⟩], 1, 1/2, 9/10, 0, 1/10, 1, 1, 10⟩⟩,
    false, some (3/2)⟩

/-- A configuration whose target-update interval is 1 (every step is a
multiple). -/
def cfgC : Config := ⟨1, 1, 1, 0, 0⟩

/-- The outcome of a terminal loop iteration on the concrete data. -/
def outC : StepOut ℚ Unit :=
  ⟨⟨[()], some [()], 0, 0, 1, 2, 5,
    ⟨2, 0, [⟨[()], 0, 0, none, 2⟩], 1, 1/2, 1, 0, 1/10, 1, 1, 10⟩⟩, true, some 2⟩

/-- A terminal step input (the environment reports `done`). -/
def inpC : StepInput Unit := ⟨(), (), 0, true, 0⟩

/-- A concrete step input with a raw reward of 7, outside [−1, 1]. -/
def inpR : StepInput Unit := ⟨(), (), 7, false, 0⟩

/-- The outcome of a loop iteration on the out-of-range-reward input: the
stored transition's reward is clipped to 1 while the episode total absorbs
the raw 7. -/
def outR : StepOut ℚ Unit :=
  ⟨⟨[()], some [()], 0, 7, 1, 2, 5,
    ⟨2, 0, [⟨[()], 0, 1, some [()], 1⟩], 1, 1/2, 9/10, 0, 1/10, 1, 1, 10⟩⟩,
    false, some 1⟩

/-- A concrete `Memory` over two states and two extra sequences. -/
def mW : Memory Nat Nat := ⟨[10, 20], [[1, 2], [3, 4, 5]]⟩

/-- A constant 1×1 RGB test image with every channel at 100. -/
def imgW : ImageHWC 1 1 := fun _ _ _ => 100

/-! Field-level helper lemmas about the modelled `DQN` operations. -/

@[simp] theorem remember_memory (d : DQNState Θ Φ) (s : List Φ) (a : Nat) (r : ℚ)
    (ns : Option (List Φ)) (err : ℚ) :
    (d.remember s a r ns err).memory = pushEvict d.memory_size d.memory ⟨s, a, r, ns, |err|⟩ :=
  rfl

@[simp] theorem remember_qnet (d : DQNState Θ Φ) (s : List Φ) (a : Nat) (r : ℚ)
    (ns : Option (List Φ)) (err : ℚ) : (d.remember s a r ns err).qnet = d.qnet := rfl

@[simp] theorem remember_target (d : DQNState Θ Φ) (s : List Φ) (a : Nat) (r : ℚ)
    (ns : Option (List Φ)) (err : ℚ) : (d.remember s a r ns err).target = d.target := rfl

@[simp] theorem remember_epsilon (d : DQNState Θ Φ) (s : List Φ) (a : Nat) (r : ℚ)
    (ns : Option (List Φ)) (err : ℚ) : (d.remember s a r ns err).epsilon = d.epsilon := rfl

@[simp] theorem remember_epsilon_min (d : DQNState Θ Φ) (s : List Φ) (a : Nat) (r : ℚ)
    (ns : Option (List Φ)) (err : ℚ) : (d.remember s a r ns err).epsilon_min = d.epsilon_min :=
  rfl

@[simp] theorem remember_epsilon_decay (d : DQNState Θ Φ) (s : List Φ) (a : Nat) (r : ℚ)
    (ns : Option (List Φ)) (err : ℚ) :
    (d.remember s a r ns err).epsilon_decay = d.epsilon_decay := rfl

@[simp] theorem remember_memory_size (d : DQNState Θ Φ) (s : List Φ) (a : Nat) (r : ℚ)
    (ns : Option (List Φ)) (err : ℚ) : (d.remember s a r ns err).memory_size = d.memory_size :=
  rfl

@[simp] theorem train_fst_memory (grad : Θ → List (Transition Φ) → Θ)
    (lossOf : Θ → List (Transition Φ) → ℚ) (d : DQNState Θ Φ) (bs : Nat) :
    (d.train grad lossOf bs).1.memory = d.memory := by
  unfold DQNState.train; split <;> rfl

@[simp] theorem train_fst_target (grad : Θ → List (Transition Φ) → Θ)
    (lossOf : Θ → List (Transition Φ) → ℚ) (d : DQNState Θ Φ) (bs : Nat) :
    (d.train grad lossOf bs).1.target = d.target := by
  unfold DQNState.train; split <;> rfl

@[simp] theorem train_fst_epsilon (grad : Θ → List (Transition Φ) → Θ)
    (lossOf : Θ → List (Transition Φ) → ℚ) (d : DQNState Θ Φ) (bs : Nat) :
    (d.train grad lossOf bs).1.epsilon = d.epsilon := by
  unfold DQNState.train; split <;> rfl

@[simp] theorem train_fst_epsilon_min (grad : Θ → List (Transition Φ) → Θ)
    (lossOf : Θ → List (Transition Φ) → ℚ) (d : DQNState Θ Φ) (bs : Nat) :
    (d.train grad lossOf bs).1.epsilon_min = d.epsilon_min := by
  unfold DQNState.train; split <;> rfl

@[simp] theorem train_fst_epsilon_decay (grad : Θ → List (Transition Φ) → Θ)
    (lossOf : Θ → List (Transition Φ) → ℚ) (d : DQNState Θ Φ) (bs : Nat) :
    (d.train grad lossOf bs).1.epsilon_decay = d.epsilon_decay := by
  unfold DQNState.train; split <;> rfl

theorem train_fst_qnet (grad : Θ → List (Transition Φ) → Θ)
    (lossOf : Θ → List (Transition Φ) → ℚ) (d : DQNState Θ Φ) (bs : Nat) :
    (d.train grad lossOf bs).1.qnet
      = if d.memory.length < bs then d.qnet else grad d.qnet d.memory := by
  unfold DQNState.train; split <;> rfl

@[simp] theorem step_epsilon_epsilon (d : DQNState Θ Φ) :
    d.step_epsilon.epsilon = max (d.epsilon - d.epsilon_decay) d.epsilon_min := rfl

@[simp] theorem step_epsilon_epsilon_min (d : DQNState Θ Φ) :
    d.step_epsilon.epsilon_min = d.epsilon_min := rfl

@[simp] theorem step_epsilon_epsilon_decay (d : DQNState Θ Φ) :
    d.step_epsilon.epsilon_decay = d.epsilon_decay := rfl

@[simp] theorem step_epsilon_memory (d : DQNState Θ Φ) :
    d.step_epsilon.memory = d.memory := rfl

@[simp] theorem step_epsilon_qnet (d : DQNState Θ Φ) :
    d.step_epsilon.qnet = d.qnet := rfl

@[simp] theorem step_epsilon_target (d : DQNState Θ Φ) :
    d.step_epsilon.target = d.target := rfl

@[simp] theorem update_target_target (d : DQNState Θ Φ) :
    d.update_target.target = d.qnet := rfl

@[simp] theorem update_target_qnet (d : DQNState Θ Φ) :
    d.update_target.qnet = d.qnet := rfl

@[simp] theorem update_target_memory (d : DQNState Θ Φ) :
    d.update_target.memory = d.memory := rfl

@[simp] theorem update_target_epsilon (d : DQNState Θ Φ) :
    d.update_target.epsilon = d.epsilon := rfl

/-! Characterization of the two branches of `actPhase`. -/

/-- On an episode-ending step, `actPhase` stores a terminal transition (with
`next_state = none` and the signed error `Q(s,a) − reward`), breaks out of
the episode, and touches nothing else of the agent. -/
theorem actPhase_terminal (prep : Ω → Φ) (Q : Θ → List Φ → Nat → ℚ)
    (grad : Θ → List (Transition Φ) → Θ) (lossOf : Θ → List (Transition Φ) → ℚ)
    (cfg : Config) (inp : StepInput Ω) (st : LoopState Θ Φ) (fb s : List Φ)
    (h : terminalCond inp st = true) :
    actPhase prep Q grad lossOf cfg inp st fb s =
      ⟨{ st with
          frame_buffer := pushEvict cfg.frame_buffer_size fb (prep inp.screen)
          total_reward := st.total_reward + inp.reward
          last_reward := if 0 < np_clip inp.reward then st.t else st.last_reward
          dqn := st.dqn.remember s inp.action (np_clip inp.reward) none
            (Q st.dqn.qnet s inp.action - np_clip inp.reward)
          t := st.t + 1
          global_t := st.global_t + 1 }, true,
        some (Q st.dqn.qnet s inp.action - np_clip inp.reward)⟩ := by
  unfold actPhase
  rw [if_pos h]

/-- On a regular step, `actPhase` stores the transition with its successor
state and the signed TD error, trains, advances ε, and hard-updates the
target exactly when the global counter is a multiple of the configured
interval. -/
theorem actPhase_nonterminal (prep : Ω → Φ) (Q : Θ → List Φ → Nat → ℚ)
    (grad : Θ → List (Transition Φ) → Θ) (lossOf : Θ → List (Transition Φ) → ℚ)
    (cfg : Config) (inp : StepInput Ω) (st : LoopState Θ Φ) (fb s : List Φ)
    (h : terminalCond inp st = false) :
    actPhase prep Q grad lossOf cfg inp st fb s =
      (let fb2 := pushEvict cfg.frame_buffer_size fb (prep inp.screen)
       let error := st.dqn.td_error Q (Q st.dqn.qnet s inp.action) (np_clip inp.reward) fb2
       let dqn2 := ((st.dqn.remember s inp.action (np_clip inp.reward) (some fb2)
         error).train grad lossOf cfg.batch_size).1.step_epsilon
       ⟨{ st with
           frame_buffer := fb2
           state := some fb2
           total_reward := st.total_reward + inp.reward
           last_reward := if 0 < np_clip inp.reward then st.t else st.last_reward
           dqn := if st.global_t % cfg.target_update_interval == 0
             then dqn2.update_target else dqn2
           t := st.t + 1
           global_t := st.global_t + 1 }, false, some error⟩) := by
  unfold actPhase
  rw [if_neg (by simp [h])]

@[simp] theorem targetValue_none (Q : Θ → List Φ → Nat → ℚ) (d : DQNState Θ Φ) (r : ℚ) :
    targetValue Q d r none = r := rfl

@[simp] theorem targetValue_some (Q : Θ → List Φ → Nat → ℚ) (d : DQNState Θ Φ) (r : ℚ)
    (ns : List Φ) : targetValue Q d r (some ns) = r + d.gamma * maxQ Q d.target ns d.nActions :=
  rfl

theorem td_error_eq_sub_target (Q : Θ → List Φ → Nat → ℚ) (d : DQNState Θ Φ)
    (q r : ℚ) (ns : List Φ) : d.td_error Q q r ns = q - targetValue Q d r (some ns) := rfl

/-- The episode-ending test only reads the step counter, the last-reward
tracker and the timeout of the loop state. -/
theorem terminalCond_congr (inp : StepInput Ω) (st1 st : LoopState Θ Φ)
    (h1 : st1.t = st.t) (h2 : st1.last_reward = st.last_reward)
    (h3 : st1.no_reward_timeout = st.no_reward_timeout) :
    terminalCond inp st1 = terminalCond inp st := by
  unfold terminalCond; rw [h1, h2, h3]

/-- Any successful loop iteration is either a pure frame-buffer fill step
(the `continue`, which stores nothing and leaves the agent untouched) or an
`actPhase` application on a loop state agreeing with the current one on every
field the action phase reads. -/
theorem loopStep_cases (prep : Ω → Φ) (Q : Θ → List Φ → Nat → ℚ)
    (grad : Θ → List (Transition Φ) → Θ) (lossOf : Θ → List (Transition Φ) → ℚ)
    (cfg : Config) (inp : StepInput Ω) (st : LoopState Θ Φ) (out : StepOut Θ Φ)
    (hout : loopStep prep Q grad lossOf cfg inp st = some out) :
    (out.st.dqn = st.dqn ∧ out.ended = false ∧ out.error = none ∧
      out.st.total_reward = st.total_reward) ∨
    ∃ st1 fb s, out = actPhase prep Q grad lossOf cfg inp st1 fb s ∧
      st1.dqn = st.dqn ∧ st1.t = st.t ∧ st1.global_t = st.global_t ∧
      st1.last_reward = st.last_reward ∧ st1.total_reward = st.total_reward ∧
      st1.no_reward_timeout = st.no_reward_timeout := by
  by_cases h1 : st.frame_buffer.length < cfg.frame_buffer_size
  · by_cases h2 : (pushEvict cfg.frame_buffer_size st.frame_buffer
      (prep inp.fill_screen)).length < cfg.frame_buffer_size
    · left
      simp only [loopStep, if_pos h1, if_pos h2, Option.some.injEq] at hout
      rw [← hout]
      exact ⟨rfl, rfl, rfl, rfl⟩
    · right
      simp only [loopStep, if_pos h1, if_neg h2, Option.some.injEq] at hout
      exact ⟨_, _, _, hout.symm, rfl, rfl, rfl, rfl, rfl, rfl⟩
  · cases hst : st.state with
    | none => simp [loopStep, if_neg h1, hst] at hout
    | some s =>
      right
      simp only [loopStep, if_neg h1, hst, Option.some.injEq] at hout
      exact ⟨st, st.frame_buffer, s, hout.symm, rfl, rfl, rfl, rfl, rfl, rfl⟩

/-- C1: whenever one iteration of the training loop inserts a transition into
the prioritized replay memory, the priority stored with it is the TD-error
magnitude |Q(s,a) − target| computed from the live network at insertion time
(with a reward-only target when the transition is terminal), never a default
constant; iterations that insert nothing leave the memory unchanged. -/
theorem priority_is_td_error_magnitude (prep : Ω → Φ) (Q : Θ → List Φ → Nat → ℚ)
    (grad : Θ → List (Transition Φ) → Θ) (lossOf : Θ → List (Transition Φ) → ℚ)
    (cfg : Config) (inp : StepInput Ω) (st : LoopState Θ Φ) (out : StepOut Θ Φ)
    (hout : loopStep prep Q grad lossOf cfg inp st = some out) :
    out.st.dqn.memory = st.dqn.memory ∨
    ∃ tr : Transition Φ,
      out.st.dqn.memory = pushEvict st.dqn.memory_size st.dqn.memory tr ∧
      tr.priority = |Q st.dqn.qnet tr.state tr.action
        - targetValue Q st.dqn tr.reward tr.next_state| := by
  rcases loopStep_cases prep Q grad lossOf cfg inp st out hout with
    ⟨hd, _, _, _⟩ | ⟨st1, fb, s, heq, hdqn, ht, hg, hl, htot, hn⟩
  · left; rw [hd]
  · right
    by_cases hterm : terminalCond inp st1 = true
    · rw [heq, actPhase_terminal prep Q grad lossOf cfg inp st1 fb s hterm]
      refine ⟨⟨s, inp.action, np_clip inp.reward, none,
        |Q st1.dqn.qnet s inp.action - np_clip inp.reward|⟩, ?_, ?_⟩
      · simp [hdqn]
      · simp [hdqn]
    · rw [heq, actPhase_nonterminal prep Q grad lossOf cfg inp st1 fb s
        (by simpa using hterm)]
      refine ⟨⟨s, inp.action, np_clip inp.reward,
        some (pushEvict cfg.frame_buffer_size fb (prep inp.screen)),
        |st1.dqn.td_error Q (Q st1.dqn.qnet s inp.action) (np_clip inp.reward)
          (pushEvict cfg.frame_buffer_size fb (prep inp.screen))|⟩, ?_, ?_⟩
      · by_cases hu : st1.global_t % cfg.target_update_interval = 0 <;> simp [hu, hdqn]
      · rw [td_error_eq_sub_target, hdqn]

/-- Witness for the C1 theorem at a concrete one-step input. -/
theorem priority_is_td_error_magnitude_witness :
    loopStep prepW QW gradW lossW cfgW inpW stW = some outW ∧
    (outW.st.dqn.memory = stW.dqn.memory ∨
      ∃ tr : Transition Unit,
        outW.st.dqn.memory = pushEvict stW.dqn.memory_size stW.dqn.memory tr ∧
        tr.priority = |QW stW.dqn.qnet tr.state tr.action
          - targetValue QW stW.dqn tr.reward tr.next_state|) :=
  ⟨by norm_num [loopStep, actPhase, terminalCond, np_clip, prepW, QW, gradW, lossW, cfgW,
      stW, inpW, outW, dqnW, pushEvict, DQNState.remember, DQNState.train,
      DQNState.step_epsilon, DQNState.update_target, DQNState.td_error, maxQ,
      List.range_succ],
    priority_is_td_error_magnitude prepW QW gradW lossW cfgW inpW stW outW
    (by norm_num [loopStep, actPhase, terminalCond, np_clip, prepW, QW, gradW, lossW, cfgW,
      stW, inpW, outW, dqnW, pushEvict, DQNState.remember, DQNState.train,
      DQNState.step_epsilon, DQNState.update_target, DQNState.td_error, maxQ,
      List.range_succ])⟩

/-- C2 counterexample: at global step 1 with `target_update_interval = 1`
(so the step counter is a multiple of the interval), the environment reports
`done`, and the `break` at `src/main.py` line 147 leaves the loop before the
hard-update line 167 runs: the target parameters stay 0 while the live
parameters are 2, so the target is not overwritten at this multiple of K. -/
theorem hard_update_counterexample :
    stW.global_t % cfgC.target_update_interval = 0 ∧
    (loopStep prepW QW gradW lossW cfgC inpC stW).map
      (fun o => (o.st.dqn.target, o.st.dqn.qnet)) = some (0, 2) := by
  constructor
  · rfl
  · norm_num [loopStep, actPhase, terminalCond, np_clip, prepW, QW, gradW, lossW, cfgC,
      stW, inpC, dqnW, pushEvict, DQNState.remember, DQNState.train,
      DQNState.step_epsilon, DQNState.update_target, DQNState.td_error, maxQ,
      List.range_succ]

/-- C2 (amended): the target network is overwritten with a copy of the live
network's parameters exactly at the iterations that complete a full training
step (frame buffer already full and the stored transition non-terminal)
whose global step counter is a multiple of the configured interval; at the
update instant the target equals the live parameters bit-for-bit, and at
every other iteration — frame-buffer fill steps and episode-ending steps
included, even when the counter is a multiple of K — the target parameters
are left exactly as they were. -/
theorem hard_update_exact (prep : Ω → Φ) (Q : Θ → List Φ → Nat → ℚ)
    (grad : Θ → List (Transition Φ) → Θ) (lossOf : Θ → List (Transition Φ) → ℚ)
    (cfg : Config) (inp : StepInput Ω) (st : LoopState Θ Φ) (out : StepOut Θ Φ)
    (hK : 0 < cfg.target_update_interval)
    (hout : loopStep prep Q grad lossOf cfg inp st = some out) :
    (out.ended = false → out.error.isSome = true →
      st.global_t % cfg.target_update_interval = 0 →
      out.st.dqn.target = out.st.dqn.qnet) ∧
    (out.ended = true ∨ out.error = none ∨
        ¬ st.global_t % cfg.target_update_interval = 0 →
      out.st.dqn.target = st.dqn.target) := by
  rcases loopStep_cases prep Q grad lossOf cfg inp st out hout with
    ⟨hd, hend, herr, _⟩ | ⟨st1, fb, s, heq, hdqn, ht, hg, hl, htot, hn⟩
  · refine ⟨?_, ?_⟩
    · intro _ hsome _
      rw [herr] at hsome
      simp at hsome
    · intro _
      rw [hd]
  · by_cases hterm : terminalCond inp st1 = true
    · rw [heq, actPhase_terminal prep Q grad lossOf cfg inp st1 fb s hterm]
      refine ⟨?_, ?_⟩
      · intro hend
        simp at hend
      · intro _
        simp [hdqn]
    · rw [heq, actPhase_nonterminal prep Q grad lossOf cfg inp st1 fb s
        (by simpa using hterm)]
      refine ⟨?_, ?_⟩
      · intro _ _ hmod
        rw [← hg] at hmod
        simp [hmod]
      · intro hcase
        rcases hcase with hend | herr | hmod
        · simp at hend
        · simp at herr
        · rw [← hg] at hmod
          simp [hmod, hdqn]

/-- Witness for the amended C2 theorem at a concrete non-terminal step whose
counter is not a multiple of the interval. -/
theorem hard_update_exact_witness :
    (outW.ended = false → outW.error.isSome = true →
      stW.global_t % cfgW.target_update_interval = 0 →
      outW.st.dqn.target = outW.st.dqn.qnet) ∧
    (outW.ended = true ∨ outW.error = none ∨
        ¬ stW.global_t % cfgW.target_update_interval = 0 →
      outW.st.dqn.target = stW.dqn.target) :=
  hard_update_exact prepW QW gradW lossW cfgW inpW stW outW (by decide)
    (by norm_num [loopStep, actPhase, terminalCond, np_clip, prepW, QW, gradW, lossW, cfgW,
      stW, inpW, outW, dqnW, pushEvict, DQNState.remember, DQNState.train,
      DQNState.step_epsilon, DQNState.update_target, DQNState.td_error, maxQ,
      List.range_succ])

/-- C3: the training target of a terminal transition (`next_state = none`)
is exactly its reward, with no bootstrap term; and on an episode-ending loop
iteration the TD error recorded (and whose magnitude seeds the stored
priority) is exactly Q(s,a) − reward. -/
theorem terminal_target_is_reward (prep : Ω → Φ) (Q : Θ → List Φ → Nat → ℚ)
    (grad : Θ → List (Transition Φ) → Θ) (lossOf : Θ → List (Transition Φ) → ℚ)
    (cfg : Config) (inp : StepInput Ω) (st : LoopState Θ Φ) (out : StepOut Θ Φ)
    (hout : loopStep prep Q grad lossOf cfg inp st = some out)
    (hend : out.ended = true) :
    (∀ (d : DQNState Θ Φ) (r : ℚ), targetValue Q d r none = r) ∧
    ∃ s : List Φ,
      out.error = some (Q st.dqn.qnet s inp.action - np_clip inp.reward) ∧
      out.st.dqn.memory = pushEvict st.dqn.memory_size st.dqn.memory
        ⟨s, inp.action, np_clip inp.reward, none,
          |Q st.dqn.qnet s inp.action - np_clip inp.reward|⟩ := by
  refine ⟨fun d r => rfl, ?_⟩
  rcases loopStep_cases prep Q grad lossOf cfg inp st out hout with
    ⟨_, hendf, _, _⟩ | ⟨st1, fb, s, heq, hdqn, ht, hg, hl, htot, hn⟩
  · rw [hendf] at hend
    exact absurd hend (by simp)
  · by_cases hterm : terminalCond inp st1 = true
    · rw [heq, actPhase_terminal prep Q grad lossOf cfg inp st1 fb s hterm]
      exact ⟨s, by simp [hdqn], by simp [hdqn]⟩
    · rw [heq, actPhase_nonterminal prep Q grad lossOf cfg inp st1 fb s
        (by simpa using hterm)] at hend
      simp at hend

/-- Witness for the C3 theorem at a concrete terminal step: the environment
reports `done`, the recorded error is Q(s,a) − reward = 2 − 0. -/
theorem terminal_target_is_reward_witness :
    (∀ (d : DQNState ℚ Unit) (r : ℚ), targetValue QW d r none = r) ∧
    ∃ s : List Unit,
      outC.error = some (QW stW.dqn.qnet s inpC.action - np_clip inpC.reward) ∧
      outC.st.dqn.memory = pushEvict stW.dqn.memory_size stW.dqn.memory
        ⟨s, inpC.action, np_clip inpC.reward, none,
          |QW stW.dqn.qnet s inpC.action - np_clip inpC.reward|⟩ :=
  terminal_target_is_reward prepW QW gradW lossW cfgW inpC stW outC
    (by norm_num [loopStep, actPhase, terminalCond, np_clip, prepW, QW, gradW, lossW, cfgW,
      stW, inpC, outC, dqnW, pushEvict, DQNState.remember, DQNState.train,
      DQNState.step_epsilon, DQNState.update_target, DQNState.td_error, maxQ,
      List.range_succ])
    (by rfl)

/-- C4: a transition is stored with `next_state = none` exactly when the
episode ends at that step — the environment reported `done` or the no-reward
timeout elapsed (the `terminalCond` test of `src/main.py` line 144), which is
also exactly when the loop breaks — and every non-terminal stored transition
carries the actual successor stacked state, which becomes the loop's next
`state`. -/
theorem next_state_none_iff_terminal (prep : Ω → Φ) (Q : Θ → List Φ → Nat → ℚ)
    (grad : Θ → List (Transition Φ) → Θ) (lossOf : Θ → List (Transition Φ) → ℚ)
    (cfg : Config) (inp : StepInput Ω) (st : LoopState Θ Φ) (out : StepOut Θ Φ)
    (hout : loopStep prep Q grad lossOf cfg inp st = some out) :
    (out.error = none → out.st.dqn.memory = st.dqn.memory) ∧
    (out.error.isSome = true →
      ∃ tr : Transition Φ,
        out.st.dqn.memory = pushEvict st.dqn.memory_size st.dqn.memory tr ∧
        (tr.next_state = none ↔ terminalCond inp st = true) ∧
        (tr.next_state = none ↔ out.ended = true) ∧
        (out.ended = false →
          tr.next_state = some out.st.frame_buffer ∧
          out.st.state = some out.st.frame_buffer)) := by
  rcases loopStep_cases prep Q grad lossOf cfg inp st out hout with
    ⟨hd, hendf, herrf, _⟩ | ⟨st1, fb, s, heq, hdqn, ht, hg, hl, htot, hn⟩
  · refine ⟨fun _ => by rw [hd], fun hsome => ?_⟩
    rw [herrf] at hsome
    simp at hsome
  · have hcongr : terminalCond inp st1 = terminalCond inp st :=
      terminalCond_congr inp st1 st ht hl hn
    by_cases hterm : terminalCond inp st1 = true
    · rw [heq, actPhase_terminal prep Q grad lossOf cfg inp st1 fb s hterm]
      refine ⟨fun hnone => by simp at hnone, fun _ => ?_⟩
      refine ⟨⟨s, inp.action, np_clip inp.reward, none,
        |Q st1.dqn.qnet s inp.action - np_clip inp.reward|⟩, by simp [hdqn], ?_, ?_, ?_⟩
      · rw [← hcongr]
        simp [hterm]
      · simp
      · intro hfalse
        simp at hfalse
    · rw [heq, actPhase_nonterminal prep Q grad lossOf cfg inp st1 fb s
        (by simpa using hterm)]
      refine ⟨fun hnone => by simp at hnone, fun _ => ?_⟩
      refine ⟨⟨s, inp.action, np_clip inp.reward,
        some (pushEvict cfg.frame_buffer_size fb (prep inp.screen)),
        |st1.dqn.td_error Q (Q st1.dqn.qnet s inp.action) (np_clip inp.reward)
          (pushEvict cfg.frame_buffer_size fb (prep inp.screen))|⟩, ?_, ?_, ?_, ?_⟩
      · by_cases hu : st1.global_t % cfg.target_update_interval = 0 <;> simp [hu, hdqn]
      · rw [← hcongr]
        simp [hterm]
      · simp
      · intro _
        simp

/-- Witness for the C4 theorem at a concrete non-terminal step. -/
theorem next_state_none_iff_terminal_witness :
    (outW.error = none → outW.st.dqn.memory = stW.dqn.memory) ∧
    (outW.error.isSome = true →
      ∃ tr : Transition Unit,
        outW.st.dqn.memory = pushEvict stW.dqn.memory_size stW.dqn.memory tr ∧
        (tr.next_state = none ↔ terminalCond inpW stW = true) ∧
        (tr.next_state = none ↔ outW.ended = true) ∧
        (outW.ended = false →
          tr.next_state = some outW.st.frame_buffer ∧
          outW.st.state = some outW.st.frame_buffer)) :=
  next_state_none_iff_terminal prepW QW gradW lossW cfgW inpW stW outW
    (by norm_num [loopStep, actPhase, terminalCond, np_clip, prepW, QW, gradW, lossW, cfgW,
      stW, inpW, outW, dqnW, pushEvict, DQNState.remember, DQNState.train,
      DQNState.step_epsilon, DQNState.update_target, DQNState.td_error, maxQ,
      List.range_succ])

/-- C5: a training-step call finding fewer than `batch_size` transitions in
the replay buffer is a no-op — the agent state (parameters, buffer, schedule)
is returned unchanged with no loss, not an exception — and otherwise exactly
one gradient update is applied to the live parameters. -/
theorem train_gates_on_buffer_size (grad : Θ → List (Transition Φ) → Θ)
    (lossOf : Θ → List (Transition Φ) → ℚ) (d : DQNState Θ Φ) (batch_size : Nat) :
    (d.memory.length < batch_size → d.train grad lossOf batch_size = (d, none)) ∧
    (batch_size ≤ d.memory.length →
      d.train grad lossOf batch_size
        = ({ d with qnet := grad d.qnet d.memory }, some (lossOf d.qnet d.memory))) := by
  constructor
  · intro h
    unfold DQNState.train
    rw [if_pos h]
  · intro h
    unfold DQNState.train
    rw [if_neg (Nat.not_lt.mpr h)]

/-- Witness for the C5 theorem: the concrete agent has an empty buffer, so a
batch-size-1 training call returns it unchanged, while a batch-size-0 call
performs the (identity) gradient update. -/
theorem train_gates_on_buffer_size_witness :
    dqnW.train gradW lossW 1 = (dqnW, none) ∧
    dqnW.train gradW lossW 0
      = ({ dqnW with qnet := gradW dqnW.qnet dqnW.memory },
          some (lossW dqnW.qnet dqnW.memory)) :=
  ⟨(train_gates_on_buffer_size gradW lossW dqnW 1).1 (by decide),
   (train_gates_on_buffer_size gradW lossW dqnW 0).2 (by decide)⟩

/-- The length of a `flatMap` whose pieces all have the same length. -/
theorem length_flatMap_const {α β : Type} (l : List α) (f : α → List β) (k : Nat)
    (h : ∀ x ∈ l, (f x).length = k) : (l.flatMap f).length = l.length * k := by
  induction l with
  | nil => simp
  | cons a l ih =>
    rw [List.flatMap_cons, List.length_append, h a (List.mem_cons_self a l),
      ih (fun x hx => h x (List.mem_cons_of_mem a hx)), List.length_cons]
    ring

/-- C6: the discrete action table has exactly
|turn levels| × |gas levels| × |brake levels| entries, and its entries are
exactly the Cartesian-product triples [turn, gas, brake], so each DQN action
index selects one such triple. -/
theorem make_action_space_is_product (al : ActionLevels) :
    (make_action_space al).length
      = al.turn.length * al.gas.length * al.brake.length ∧
    ∀ a : List ℚ, a ∈ make_action_space al ↔
      ∃ t ∈ al.turn, ∃ g ∈ al.gas, ∃ b ∈ al.brake, a = [t, g, b] := by
  constructor
  · rw [make_action_space, length_flatMap_const _ _ (al.gas.length * al.brake.length)
      (fun t _ => length_flatMap_const _ _ al.brake.length (fun g _ => by simp)),
      Nat.mul_assoc]
  · intro a
    simp only [make_action_space, List.mem_flatMap, List.mem_map]
    constructor
    · rintro ⟨t, ht, g, hg, b, hb, rfl⟩
      exact ⟨t, ht, g, hg, b, hb, rfl⟩
    · rintro ⟨t, ht, g, hg, b, hb, rfl⟩
      exact ⟨t, ht, g, hg, b, hb, rfl⟩

/-- The ε-floor field is invariant under the ε schedule. -/
theorem step_epsilon_iterate_min (d : DQNState Θ Φ) (n : Nat) :
    (DQNState.step_epsilon^[n] d).epsilon_min = d.epsilon_min := by
  induction n with
  | zero => rfl
  | succ n ih => rw [Function.iterate_succ_apply', step_epsilon_epsilon_min, ih]

/-- The ε-decrement field is invariant under the ε schedule. -/
theorem step_epsilon_iterate_decay (d : DQNState Θ Φ) (n : Nat) :
    (DQNState.step_epsilon^[n] d).epsilon_decay = d.epsilon_decay := by
  induction n with
  | zero => rfl
  | succ n ih => rw [Function.iterate_succ_apply', step_epsilon_epsilon_decay, ih]

/-- Closed form of the per-step ε schedule: after n steps, ε is the initial
value minus n decrements, floored at `epsilon_min`. -/
theorem step_epsilon_iterate_epsilon (d : DQNState Θ Φ)
    (hδ : 0 ≤ d.epsilon_decay) (hε : d.epsilon_min ≤ d.epsilon) (n : Nat) :
    (DQNState.step_epsilon^[n] d).epsilon
      = max (d.epsilon - n * d.epsilon_decay) d.epsilon_min := by
  induction n with
  | zero =>
    simp [max_eq_left hε]
  | succ n ih =>
    rw [Function.iterate_succ_apply', step_epsilon_epsilon, step_epsilon_iterate_min,
      step_epsilon_iterate_decay, ih, ← max_sub_sub_right, max_assoc,
      max_eq_right (sub_le_self d.epsilon_min hδ)]
    congr 1
    push_cast
    ring

/-- C7: the exploration rate decays by a fixed per-step decrement from its
initial value toward the floor and never falls below it (closed form
`max(ε₀ − n·δ, ε_min)` after n advances); within the loop, ε is advanced
exactly once on every iteration that runs a training step and is untouched
on fill and episode-ending iterations; the per-episode reset does not touch
the agent, so the decay state carries across episode boundaries. -/
theorem epsilon_decay_schedule (prep : Ω → Φ) (Q : Θ → List Φ → Nat → ℚ)
    (grad : Θ → List (Transition Φ) → Θ) (lossOf : Θ → List (Transition Φ) → ℚ)
    (cfg : Config) (inp : StepInput Ω) (st : LoopState Θ Φ) (out : StepOut Θ Φ)
    (first : Ω) (n : Nat) (d : DQNState Θ Φ)
    (hδ : 0 ≤ d.epsilon_decay) (hε : d.epsilon_min ≤ d.epsilon)
    (hout : loopStep prep Q grad lossOf cfg inp st = some out) :
    d.epsilon_min ≤ d.step_epsilon.epsilon ∧
    (DQNState.step_epsilon^[n] d).epsilon
      = max (d.epsilon - n * d.epsilon_decay) d.epsilon_min ∧
    (out.ended = false → out.error.isSome = true →
      out.st.dqn.epsilon
        = max (st.dqn.epsilon - st.dqn.epsilon_decay) st.dqn.epsilon_min) ∧
    (out.ended = true ∨ out.error = none → out.st.dqn.epsilon = st.dqn.epsilon) ∧
    (episodeReset prep first st).dqn = st.dqn := by
  refine ⟨le_max_right _ _, step_epsilon_iterate_epsilon d hδ hε n, ?_, ?_, rfl⟩
  · rcases loopStep_cases prep Q grad lossOf cfg inp st out hout with
      ⟨hd, _, herrf, _⟩ | ⟨st1, fb, s, heq, hdqn, ht, hg, hl, htot, hn⟩
    · intro _ hsome
      rw [herrf] at hsome
      simp at hsome
    · by_cases hterm : terminalCond inp st1 = true
      · rw [heq, actPhase_terminal prep Q grad lossOf cfg inp st1 fb s hterm]
        intro hend
        simp at hend
      · rw [heq, actPhase_nonterminal prep Q grad lossOf cfg inp st1 fb s
          (by simpa using hterm)]
        intro _ _
        by_cases hu : st1.global_t % cfg.target_update_interval = 0 <;>
          simp [hu, hdqn]
  · rcases loopStep_cases prep Q grad lossOf cfg inp st out hout with
      ⟨hd, _, _, _⟩ | ⟨st1, fb, s, heq, hdqn, ht, hg, hl, htot, hn⟩
    · intro _
      rw [hd]
    · by_cases hterm : terminalCond inp st1 = true
      · rw [heq, actPhase_terminal prep Q grad lossOf cfg inp st1 fb s hterm]
        intro _
        simp [hdqn]
      · rw [heq, actPhase_nonterminal prep Q grad lossOf cfg inp st1 fb s
          (by simpa using hterm)]
        rintro (hend | herr)
        · simp at hend
        · simp at herr

/-- Witness for the C7 theorem: the concrete agent's schedule 1 → 0 by 1/10
evaluated after two advances, and the concrete loop iteration advancing ε
once. -/
theorem epsilon_decay_schedule_witness :
    dqnW.epsilon_min ≤ dqnW.step_epsilon.epsilon ∧
    (DQNState.step_epsilon^[2] dqnW).epsilon
      = max (dqnW.epsilon - 2 * dqnW.epsilon_decay) dqnW.epsilon_min ∧
    (outW.ended = false → outW.error.isSome = true →
      outW.st.dqn.epsilon
        = max (stW.dqn.epsilon - stW.dqn.epsilon_decay) stW.dqn.epsilon_min) ∧
    (outW.ended = true ∨ outW.error = none → outW.st.dqn.epsilon = stW.dqn.epsilon) ∧
    (episodeReset prepW () stW).dqn = stW.dqn :=
  epsilon_decay_schedule prepW QW gradW lossW cfgW inpW stW outW () 2 dqnW
    (by norm_num [dqnW]) (by norm_num [dqnW])
    (by norm_num [loopStep, actPhase, terminalCond, np_clip, prepW, QW, gradW, lossW, cfgW,
      stW, inpW, outW, dqnW, pushEvict, DQNState.remember, DQNState.train,
      DQNState.step_epsilon, DQNState.update_target, DQNState.td_error, maxQ,
      List.range_succ])

/-- `np.clip` lands in [−1, 1]. -/
theorem np_clip_mem_Icc (r : ℚ) : -1 ≤ np_clip r ∧ np_clip r ≤ 1 := by
  unfold np_clip
  exact ⟨le_min (le_max_right r (-1)) (by norm_num), min_le_right _ 1⟩

/-- An element of a bounded push is an old element or the pushed one. -/
theorem mem_pushEvict {cap : Nat} {mem : List α} {x tr : α}
    (h : tr ∈ pushEvict cap mem x) : tr ∈ mem ∨ tr = x := by
  have h2 : tr ∈ mem ++ [x] := by
    simp only [pushEvict] at h
    split at h
    · exact List.drop_subset _ _ h
    · exact h
  rcases List.mem_append.1 h2 with h3 | h3
  · exact Or.inl h3
  · exact Or.inr (by simpa using h3)

/-- C9: if every transition in the replay memory has its reward in [−1, 1],
then after any loop iteration this still holds — the loop clips each raw
environment reward with `np.clip(reward, −1, 1)` before building the
transition — while the unclipped reward is accumulated into the episode's
total-reward statistic. -/
theorem stored_rewards_clipped (prep : Ω → Φ) (Q : Θ → List Φ → Nat → ℚ)
    (grad : Θ → List (Transition Φ) → Θ) (lossOf : Θ → List (Transition Φ) → ℚ)
    (cfg : Config) (inp : StepInput Ω) (st : LoopState Θ Φ) (out : StepOut Θ Φ)
    (hinv : ∀ tr ∈ st.dqn.memory, -1 ≤ tr.reward ∧ tr.reward ≤ 1)
    (hout : loopStep prep Q grad lossOf cfg inp st = some out) :
    (∀ tr ∈ out.st.dqn.memory, -1 ≤ tr.reward ∧ tr.reward ≤ 1) ∧
    (out.error.isSome = true →
      out.st.total_reward = st.total_reward + inp.reward) := by
  rcases loopStep_cases prep Q grad lossOf cfg inp st out hout with
    ⟨hd, _, herrf, _⟩ | ⟨st1, fb, s, heq, hdqn, ht, hg, hl, htot, hn⟩
  · refine ⟨?_, ?_⟩
    · rw [hd]
      exact hinv
    · intro hsome
      rw [herrf] at hsome
      simp at hsome
  · by_cases hterm : terminalCond inp st1 = true
    · rw [heq, actPhase_terminal prep Q grad lossOf cfg inp st1 fb s hterm]
      refine ⟨?_, fun _ => by simp [htot]⟩
      intro tr htr
      simp only [StepOut.st] at htr
      rw [remember_memory, hdqn] at htr
      rcases mem_pushEvict htr with hold | hnew
      · exact hinv tr hold
      · rw [hnew]
        exact np_clip_mem_Icc inp.reward
    · rw [heq, actPhase_nonterminal prep Q grad lossOf cfg inp st1 fb s
        (by simpa using hterm)]
      refine ⟨?_, fun _ => by simp [htot]⟩
      intro tr htr
      simp only [StepOut.st] at htr
      have htr2 : tr ∈ pushEvict st.dqn.memory_size st.dqn.memory
          ⟨s, inp.action, np_clip inp.reward,
            some (pushEvict cfg.frame_buffer_size fb (prep inp.screen)),
            |st1.dqn.td_error Q (Q st1.dqn.qnet s inp.action) (np_clip inp.reward)
              (pushEvict cfg.frame_buffer_size fb (prep inp.screen))|⟩ := by
        by_cases hu : st1.global_t % cfg.target_update_interval = 0 <;>
          simpa [hu, hdqn] using htr
      rcases mem_pushEvict htr2 with hold | hnew
      · exact hinv tr hold
      · rw [hnew]
        exact np_clip_mem_Icc inp.reward

/-- Witness for the C9 theorem at a concrete step whose raw reward 7 lies
outside [−1, 1]: the stored transition's reward is the clipped 1 and the
episode total absorbs the raw 7. -/
theorem stored_rewards_clipped_witness :
    (∀ tr ∈ outR.st.dqn.memory, -1 ≤ tr.reward ∧ tr.reward ≤ 1) ∧
    (outR.error.isSome = true →
      outR.st.total_reward = stW.total_reward + inpR.reward) :=
  stored_rewards_clipped prepW QW gradW lossW cfgW inpR stW outR
    (by simp [stW, dqnW])
    (by norm_num [loopStep, actPhase, terminalCond, np_clip, prepW, QW, gradW, lossW, cfgW,
      stW, inpR, outR, dqnW, pushEvict, DQNState.remember, DQNState.train,
      DQNState.step_epsilon, DQNState.update_target, DQNState.td_error, maxQ,
      List.range_succ])

/-- C8: `preprocess` is a pure, deterministic function — equal input
observations give equal outputs, and the embedding is mutation-free by
construction — whose result is a single-channel C×H×W tensor (C = 1, fixed
by its type) normalized so that every pixel lies in [0, 1] whenever the
input pixels are byte-valued in [0, 255]. -/
theorem preprocess_deterministic_normalized {H W : Nat} (img img2 : ImageHWC H W)
    (heq : img = img2)
    (hbound : ∀ h w c, 0 ≤ img h w c ∧ img h w c ≤ 255) :
    preprocess img = preprocess img2 ∧
    ∀ c h w, 0 ≤ preprocess img c h w ∧ preprocess img c h w ≤ 1 := by
  subst heq
  refine ⟨rfl, fun c h w => ?_⟩
  unfold preprocess
  by_cases hz : 84 ≤ (h : Nat) ∧ (w : Nat) < 18
  · simp [hz]
  · simp only [if_neg hz]
    obtain ⟨hR0, hR1⟩ := hbound h w 0
    obtain ⟨hG0, hG1⟩ := hbound h w 1
    obtain ⟨hB0, hB1⟩ := hbound h w 2
    have w0 : grayscaleWeight 0 = 2989 / 10000 := rfl
    have w1 : grayscaleWeight 1 = 587 / 1000 := rfl
    have w2 : grayscaleWeight 2 = 114 / 1000 := rfl
    rw [w0, w1, w2]
    have t0 : (0 : ℚ) ≤ 2989 / 10000 * img h w 0 := mul_nonneg (by norm_num) hR0
    have t1 : (0 : ℚ) ≤ 587 / 1000 * img h w 1 := mul_nonneg (by norm_num) hG0
    have t2 : (0 : ℚ) ≤ 114 / 1000 * img h w 2 := mul_nonneg (by norm_num) hB0
    constructor
    · apply div_nonneg _ (by norm_num)
      linarith
    · rw [div_le_one (by norm_num)]
      linarith

/-- Witness for the C8 theorem on a concrete constant 1×1 image. -/
theorem preprocess_deterministic_normalized_witness :
    0 ≤ preprocess imgW 0 0 0 ∧ preprocess imgW 0 0 0 ≤ 1 :=
  (preprocess_deterministic_normalized imgW imgW rfl
    (fun h w c => by norm_num [imgW])).2 0 0 0

/-- Indexing every sequence of a list of sequences at a common in-range
index succeeds and returns exactly the per-sequence entries. -/
theorem mapM_getElem_of_lt {β : Type} [Inhabited β] (ds : List (List β)) (i : Nat)
    (h : ∀ d ∈ ds, i < d.length) :
    (ds.mapM fun d => d[i]?) = some (ds.map fun d => d.getD i default) := by
  induction ds with
  | nil => rfl
  | cons d ds ih =>
    have hd : i < d.length := h d (List.mem_cons_self d ds)
    rw [List.mapM_cons, ih (fun x hx => h x (List.mem_cons_of_mem d hx)),
      List.getElem?_eq_getElem hd]
    simp [List.getD_eq_getElem?_getD, List.getElem?_eq_getElem hd]

/-- C10: a `Memory` built from a states sequence and k further sequences
each at least as long as the states has length `len(states)`, and indexing
it at any 0 ≤ i < len(states) returns exactly the (k+1)-tuple of the states
entry and each further sequence's entry at i; the embedding is pure, so
construction and indexing mutate none of the sequences. -/
theorem memory_len_and_getitem {σ β : Type} [Inhabited β] (m : Memory σ β) (i : Nat)
    (hi : i < m.states.length)
    (hdata : ∀ d ∈ m.data, m.states.length ≤ d.length) :
    m.size = m.states.length ∧
    m.getItem i = some (m.states.get ⟨i, hi⟩, m.data.map fun d => d.getD i default) := by
  refine ⟨rfl, ?_⟩
  unfold Memory.getItem
  rw [List.getElem?_eq_getElem hi,
    mapM_getElem_of_lt m.data i (fun d hd => lt_of_lt_of_le hi (hdata d hd))]
  simp [List.get_eq_getElem]

/-- Witness for the C10 theorem on a concrete two-state memory with two
further sequences. -/
theorem memory_len_and_getitem_witness :
    mW.size = 2 ∧ mW.getItem 1 = some (20, [2, 4]) :=
  ⟨(memory_len_and_getitem mW 1 (by decide) (by decide)).1,
    (memory_len_and_getitem mW 1 (by decide) (by decide)).2⟩

end DeepRacing
